import Mathlib

/-!
Shallow embedding of the tenant-scoped authorization and invitation-lifecycle
engine of a multi-tenant finance tracker (Express + Prisma backend).

Sources embedded here:
* `backend/src/controllers/invitation.controller.ts` — `InvitationController`
  (send / list / accept / revoke) and the organization-scoped
  `AccountController` (list / get / create / update / delete).
* `backend/src/controllers/liability.controller.ts` — the organization-scoped
  `LiabilityController` and `BalanceController`
  (list / create / bulkUpdate / getNetWorth / delete).
* The Prisma SQL migrations — unique indexes
  `Balance_accountId_date_key`, `Balance_liabilityId_date_key`,
  `Invitation_organizationId_email_key`,
  `OrganizationMember_organizationId_userId_key`, and the
  `ON DELETE CASCADE` foreign keys from Balance to Account / Liability.

Modelling conventions:
* The relational store is a record of lists (`DB`); Prisma `findFirst` /
  `findUnique` become `List.find?`, `findMany` becomes `List.filter`,
  `update` becomes `List.map` guarded on the `where` key, and
  `$transaction` becomes an explicit `txCommits` oracle: the two writes of
  the accept transaction are applied together when it commits, and the
  state is untouched when it does not.
* Timestamps (`Date`) are `Nat` milliseconds; `expiresAt > new Date()` is
  `now < expiresAt`, `setDate(getDate() + 7)` is `now + sevenDayMs`.
* `Decimal` amounts are `Int` (the claims only compare amounts for equality).
* SHA-256 hashing of invitation tokens is an explicit function parameter
  `hash : String → String`; the controller only hashes and compares.
* The `req.session.userId` presence check (HTTP 401) happens before every
  operation in the source; operations here take the resolved `userId`
  directly, so only the authenticated behaviour is modelled.
* Each handler returns its outcome together with the post-state; response
  decoration (e.g. the `creator` select) that does not affect any claim is
  not carried.
-/

/-- OrganizationRole enum from the Prisma schema. -/
inductive Role where
  | OWNER | ADMIN | MEMBER | VIEWER
deriving Repr, DecidableEq

/-- AccountType enum from the Prisma schema / zod schemas. -/
inductive AccountType where
  | CHECKING | SAVINGS | INVESTMENT | RETIREMENT | PROPERTY | VEHICLE | CRYPTO | OTHER
deriving Repr, DecidableEq

/-- LiabilityType enum from the Prisma schema / zod schemas. -/
inductive LiabilityType where
  | CREDIT_CARD | STUDENT_LOAN | MORTGAGE | AUTO_LOAN | PERSONAL_LOAN | OTHER
deriving Repr, DecidableEq

/-- User row (only the fields the embedded controllers read). -/
structure User where
  id : String
  email : String
deriving Repr, DecidableEq

/-- Organization row. -/
structure Organization where
  id : String
  name : String
  deletedAt : Option Nat
deriving Repr, DecidableEq

/-- OrganizationMember row. -/
structure OrganizationMember where
  organizationId : String
  userId : String
  role : Role
  invitedBy : Option String
  invitedAt : Option Nat
  acceptedAt : Option Nat
deriving Repr, DecidableEq

/-- Invitation row. `token` holds the SHA-256 hash, never the raw secret. -/
structure Invitation where
  id : String
  organizationId : String
  email : String
  role : Role
  token : String
  invitedBy : String
  sentAt : Nat
  expiresAt : Nat
  acceptedAt : Option Nat
  revokedAt : Option Nat
deriving Repr, DecidableEq

/-- Account row (organization-scoped schema after the second migration). -/
structure Account where
  id : String
  organizationId : String
  createdBy : String
  name : String
  type : AccountType
  currency : String
  institution : Option String
  accountNumber : Option String
  isActive : Bool
  deletedAt : Option Nat
  deletedBy : Option String
deriving Repr, DecidableEq

/-- Liability row. -/
structure Liability where
  id : String
  organizationId : String
  createdBy : String
  name : String
  type : LiabilityType
  currency : String
  interestRate : Option Int
  minimumPayment : Option Int
  dueDate : Option Int
  institution : Option String
  accountNumber : Option String
  isActive : Bool
  deletedAt : Option Nat
  deletedBy : Option String
deriving Repr, DecidableEq

/-- Balance row: a dated snapshot attached to an account or a liability. -/
structure Balance where
  id : String
  accountId : Option String
  liabilityId : Option String
  amount : Int
  date : Nat
  note : Option String
deriving Repr, DecidableEq

/-- The relational store. -/
structure DB where
  users : List User
  organizations : List Organization
  members : List OrganizationMember
  invitations : List Invitation
  accounts : List Account
  liabilities : List Liability
  balances : List Balance
deriving Repr, DecidableEq

/-- Outcome of a request handler, mirroring the HTTP statuses and error
strings the controllers produce (`ok` 200/201, `noContent` 204,
`noOrganization` the 403 for a missing membership, `forbidden` 403,
`notFound` 404, `badRequest` 400, `validationFailed` the zod 400,
`serverError` an error passed to `next`, e.g. a violated unique
constraint). -/
inductive Res (α : Type) where
  | ok : α → Res α
  | noContent : Res α
  | noOrganization : Res α
  | forbidden : String → Res α
  | notFound : String → Res α
  | badRequest : String → Res α
  | validationFailed : Res α
  | serverError : Res α
deriving Repr, DecidableEq

/-- Helper shared by every controller: first OrganizationMember row of the
user whose organization is not soft-deleted
(`prisma.organizationMember.findFirst`). -/
def getOrganizationMembership (db : DB) (userId : String) : Option OrganizationMember :=
  db.members.find? (fun m =>
    m.userId == userId &&
    db.organizations.any (fun o => o.id == m.organizationId && o.deletedAt == none))

/-! ## Role gates

Each gate reifies one inline role conditional of the source. -/

/-- AccountController.create: `membership.role === VIEWER`. -/
def accountCreateDenied (r : Role) : Bool := r == .VIEWER

/-- AccountController.update: `membership.role === VIEWER`. -/
def accountEditDenied (r : Role) : Bool := r == .VIEWER

/-- AccountController.delete: `role === VIEWER || role === MEMBER`. -/
def accountDeleteDenied (r : Role) : Bool := r == .VIEWER || r == .MEMBER

/-- LiabilityController.create: `membership.role === VIEWER`. -/
def liabilityCreateDenied (r : Role) : Bool := r == .VIEWER

/-- LiabilityController.update: `membership.role === VIEWER`. -/
def liabilityEditDenied (r : Role) : Bool := r == .VIEWER

/-- LiabilityController.delete: `role === VIEWER || role === MEMBER`. -/
def liabilityDeleteDenied (r : Role) : Bool := r == .VIEWER || r == .MEMBER

/-- BalanceController.create: `membership.role === VIEWER`. -/
def balanceCreateDenied (r : Role) : Bool := r == .VIEWER

/-- BalanceController.bulkUpdate: `membership.role === VIEWER`. -/
def balanceBulkUpdateDenied (r : Role) : Bool := r == .VIEWER

/-- BalanceController.delete: `membership.role === VIEWER` (and nothing
else — MEMBER passes this gate in the source). -/
def balanceDeleteDenied (r : Role) : Bool := r == .VIEWER

/-- InvitationController.send: `role === VIEWER || role === MEMBER`. -/
def inviteDenied (r : Role) : Bool := r == .VIEWER || r == .MEMBER

/-- InvitationController.revoke: `role === VIEWER || role === MEMBER`. -/
def revokeInviteDenied (r : Role) : Bool := r == .VIEWER || r == .MEMBER

/-! ## AccountController (organization-scoped version) -/

/-- The `where` clause of the account list query: organization scope,
`deletedAt: null`, and `isActive: true` unless `includeInactive`. -/
def accountListed (orgId : String) (includeInactive : Bool) (a : Account) : Bool :=
  a.organizationId == orgId && a.deletedAt == none && (includeInactive || a.isActive)

/-- The `where` clause of the account findFirst used by get/update/delete:
id, organization scope and `deletedAt: null`. -/
def accountInOrgActive (orgId id : String) (a : Account) : Bool :=
  a.id == id && a.organizationId == orgId && a.deletedAt == none

/-- GET /api/accounts. -/
def AccountController.list (db : DB) (userId : String) (includeInactive : Bool) :
    Res (List Account) :=
  match getOrganizationMembership db userId with
  | none => .noOrganization
  | some m => .ok (db.accounts.filter (accountListed m.organizationId includeInactive))

/-- GET /api/accounts/:id. -/
def AccountController.get (db : DB) (userId id : String) : Res Account :=
  match getOrganizationMembership db userId with
  | none => .noOrganization
  | some m =>
    match db.accounts.find? (accountInOrgActive m.organizationId id) with
    | none => .notFound "Account not found"
    | some a => .ok a

/-- Raw request body of POST /api/accounts. The two trailing fields model a
client trying to smuggle `organizationId` / `createdBy` into the payload;
`createAccountSchema` strips them (zod drops unknown keys). -/
structure AccountBody where
  name : String
  type : AccountType
  currency : Option String
  institution : Option String
  accountNumber : Option String
  organizationId : Option String
  createdBy : Option String
deriving Repr, DecidableEq

/-- The output of `createAccountSchema.parse`. -/
structure AccountPayload where
  name : String
  type : AccountType
  currency : String
  institution : Option String
  accountNumber : Option String
deriving Repr, DecidableEq

/-- `createAccountSchema`: name nonempty, currency defaults to USD, unknown
keys (organizationId, createdBy) stripped. -/
def createAccountSchema (b : AccountBody) : Option AccountPayload :=
  if 1 ≤ b.name.length then
    some ⟨b.name, b.type, b.currency.getD "USD", b.institution, b.accountNumber⟩
  else none

/-- POST /api/accounts. `newId` stands for the id Prisma generates. -/
def AccountController.create (db : DB) (userId : String) (body : AccountBody)
    (newId : String) : Res Account × DB :=
  match getOrganizationMembership db userId with
  | none => (.noOrganization, db)
  | some m =>
    if accountCreateDenied m.role then (.forbidden "Viewers cannot create accounts", db)
    else
      match createAccountSchema body with
      | none => (.validationFailed, db)
      | some v =>
        let a : Account :=
          { id := newId, organizationId := m.organizationId, createdBy := userId,
            name := v.name, type := v.type, currency := v.currency,
            institution := v.institution, accountNumber := v.accountNumber,
            isActive := true, deletedAt := none, deletedBy := none }
        (.ok a, { db with accounts := db.accounts ++ [a] })

/-- Body of PATCH /api/accounts/:id (`updateAccountSchema`, all optional). -/
structure AccountUpdateBody where
  name : Option String
  type : Option AccountType
  institution : Option String
  accountNumber : Option String
  isActive : Option Bool
deriving Repr, DecidableEq

/-- `updateAccountSchema` validity: name, when present, is nonempty. -/
def updateAccountSchemaOk (u : AccountUpdateBody) : Bool :=
  match u.name with
  | some s => 1 ≤ s.length
  | none => true

/-- Application of a validated partial update (absent keys untouched). -/
def applyAccountUpdate (u : AccountUpdateBody) (a : Account) : Account :=
  { a with
    name := u.name.getD a.name
    type := u.type.getD a.type
    institution := (match u.institution with | some s => some s | none => a.institution)
    accountNumber := (match u.accountNumber with | some s => some s | none => a.accountNumber)
    isActive := u.isActive.getD a.isActive }

/-- PATCH /api/accounts/:id. -/
def AccountController.update (db : DB) (userId id : String) (u : AccountUpdateBody) :
    Res Account × DB :=
  match getOrganizationMembership db userId with
  | none => (.noOrganization, db)
  | some m =>
    if accountEditDenied m.role then (.forbidden "Viewers cannot edit accounts", db)
    else if updateAccountSchemaOk u then
      match db.accounts.find? (accountInOrgActive m.organizationId id) with
      | none => (.notFound "Account not found", db)
      | some existing =>
        (.ok (applyAccountUpdate u existing),
         { db with accounts :=
             db.accounts.map (fun a => if a.id == id then applyAccountUpdate u a else a) })
    else (.validationFailed, db)

/-- DELETE /api/accounts/:id. Hard delete removes the row and, through the
`Balance_accountId_fkey ON DELETE CASCADE` of the migration, its balances;
the default path soft-deletes with audit attribution. -/
def AccountController.delete (db : DB) (userId id : String) (hardDelete : Bool)
    (now : Nat) : Res Unit × DB :=
  match getOrganizationMembership db userId with
  | none => (.noOrganization, db)
  | some m =>
    if accountDeleteDenied m.role then (.forbidden "Only admins can delete accounts", db)
    else
      match db.accounts.find? (accountInOrgActive m.organizationId id) with
      | none => (.notFound "Account not found", db)
      | some _ =>
        if hardDelete then
          (.noContent,
           { db with
             accounts := db.accounts.filter (fun a => !(a.id == id)),
             balances := db.balances.filter (fun b => !(b.accountId == some id)) })
        else
          (.noContent,
           { db with accounts := db.accounts.map (fun a =>
               if a.id == id then
                 { a with isActive := false, deletedAt := some now, deletedBy := some userId }
               else a) })

/-! ## LiabilityController (organization-scoped version) -/

/-- The `where` clause of the liability list query. -/
def liabilityListed (orgId : String) (includeInactive : Bool) (l : Liability) : Bool :=
  l.organizationId == orgId && l.deletedAt == none && (includeInactive || l.isActive)

/-- The `where` clause of the liability findFirst used by get/update/delete. -/
def liabilityInOrgActive (orgId id : String) (l : Liability) : Bool :=
  l.id == id && l.organizationId == orgId && l.deletedAt == none

/-- GET /api/liabilities. -/
def LiabilityController.list (db : DB) (userId : String) (includeInactive : Bool) :
    Res (List Liability) :=
  match getOrganizationMembership db userId with
  | none => .noOrganization
  | some m => .ok (db.liabilities.filter (liabilityListed m.organizationId includeInactive))

/-- GET /api/liabilities/:id. -/
def LiabilityController.get (db : DB) (userId id : String) : Res Liability :=
  match getOrganizationMembership db userId with
  | none => .noOrganization
  | some m =>
    match db.liabilities.find? (liabilityInOrgActive m.organizationId id) with
    | none => .notFound "Liability not found"
    | some l => .ok l

/-- Raw request body of POST /api/liabilities, with the smuggled
organizationId / createdBy fields that the zod schema strips. -/
structure LiabilityBody where
  name : String
  type : LiabilityType
  currency : Option String
  interestRate : Option Int
  minimumPayment : Option Int
  dueDate : Option Int
  institution : Option String
  accountNumber : Option String
  organizationId : Option String
  createdBy : Option String
deriving Repr, DecidableEq

/-- Output of `createLiabilitySchema.parse`. -/
structure LiabilityPayload where
  name : String
  type : LiabilityType
  currency : String
  interestRate : Option Int
  minimumPayment : Option Int
  dueDate : Option Int
  institution : Option String
  accountNumber : Option String
deriving Repr, DecidableEq

/-- Range check of `interestRate` (0 to 100) when present. -/
def interestRateOk (x : Option Int) : Bool :=
  match x with
  | some v => decide (0 ≤ v) && decide (v ≤ 100)
  | none => true

/-- Range check of `minimumPayment` (at least 0) when present. -/
def minimumPaymentOk (x : Option Int) : Bool :=
  match x with
  | some v => decide (0 ≤ v)
  | none => true

/-- Range check of `dueDate` (1 to 31) when present. -/
def dueDateOk (x : Option Int) : Bool :=
  match x with
  | some v => decide (1 ≤ v) && decide (v ≤ 31)
  | none => true

/-- `createLiabilitySchema`: name nonempty, ranges checked, currency defaults
to USD, unknown keys stripped. -/
def createLiabilitySchema (b : LiabilityBody) : Option LiabilityPayload :=
  if 1 ≤ b.name.length && interestRateOk b.interestRate
      && minimumPaymentOk b.minimumPayment && dueDateOk b.dueDate then
    some ⟨b.name, b.type, b.currency.getD "USD", b.interestRate, b.minimumPayment,
          b.dueDate, b.institution, b.accountNumber⟩
  else none

/-- POST /api/liabilities. -/
def LiabilityController.create (db : DB) (userId : String) (body : LiabilityBody)
    (newId : String) : Res Liability × DB :=
  match getOrganizationMembership db userId with
  | none => (.noOrganization, db)
  | some m =>
    if liabilityCreateDenied m.role then (.forbidden "Viewers cannot create liabilities", db)
    else
      match createLiabilitySchema body with
      | none => (.validationFailed, db)
      | some v =>
        let l : Liability :=
          { id := newId, organizationId := m.organizationId, createdBy := userId,
            name := v.name, type := v.type, currency := v.currency,
            interestRate := v.interestRate, minimumPayment := v.minimumPayment,
            dueDate := v.dueDate, institution := v.institution,
            accountNumber := v.accountNumber, isActive := true,
            deletedAt := none, deletedBy := none }
        (.ok l, { db with liabilities := db.liabilities ++ [l] })

/-- Body of PATCH /api/liabilities/:id (`updateLiabilitySchema`). -/
structure LiabilityUpdateBody where
  name : Option String
  type : Option LiabilityType
  interestRate : Option Int
  minimumPayment : Option Int
  dueDate : Option Int
  institution : Option String
  accountNumber : Option String
  isActive : Option Bool
deriving Repr, DecidableEq

/-- `updateLiabilitySchema` validity. -/
def updateLiabilitySchemaOk (u : LiabilityUpdateBody) : Bool :=
  (match u.name with | some s => 1 ≤ s.length | none => true)
    && interestRateOk u.interestRate && minimumPaymentOk u.minimumPayment
    && dueDateOk u.dueDate

/-- Application of a validated partial liability update. -/
def applyLiabilityUpdate (u : LiabilityUpdateBody) (l : Liability) : Liability :=
  { l with
    name := u.name.getD l.name
    type := u.type.getD l.type
    interestRate := (match u.interestRate with | some v => some v | none => l.interestRate)
    minimumPayment := (match u.minimumPayment with | some v => some v | none => l.minimumPayment)
    dueDate := (match u.dueDate with | some v => some v | none => l.dueDate)
    institution := (match u.institution with | some s => some s | none => l.institution)
    accountNumber := (match u.accountNumber with | some s => some s | none => l.accountNumber)
    isActive := u.isActive.getD l.isActive }

/-- PATCH /api/liabilities/:id. -/
def LiabilityController.update (db : DB) (userId id : String) (u : LiabilityUpdateBody) :
    Res Liability × DB :=
  match getOrganizationMembership db userId with
  | none => (.noOrganization, db)
  | some m =>
    if liabilityEditDenied m.role then (.forbidden "Viewers cannot edit liabilities", db)
    else if updateLiabilitySchemaOk u then
      match db.liabilities.find? (liabilityInOrgActive m.organizationId id) with
      | none => (.notFound "Liability not found", db)
      | some existing =>
        (.ok (applyLiabilityUpdate u existing),
         { db with liabilities :=
             db.liabilities.map (fun l => if l.id == id then applyLiabilityUpdate u l else l) })
    else (.validationFailed, db)

/-- DELETE /api/liabilities/:id (hard delete cascades balances through the
migration foreign key, default path soft-deletes with attribution). -/
def LiabilityController.delete (db : DB) (userId id : String) (hardDelete : Bool)
    (now : Nat) : Res Unit × DB :=
  match getOrganizationMembership db userId with
  | none => (.noOrganization, db)
  | some m =>
    if liabilityDeleteDenied m.role then (.forbidden "Only admins can delete liabilities", db)
    else
      match db.liabilities.find? (liabilityInOrgActive m.organizationId id) with
      | none => (.notFound "Liability not found", db)
      | some _ =>
        if hardDelete then
          (.noContent,
           { db with
             liabilities := db.liabilities.filter (fun l => !(l.id == id)),
             balances := db.balances.filter (fun b => !(b.liabilityId == some id)) })
        else
          (.noContent,
           { db with liabilities := db.liabilities.map (fun l =>
               if l.id == id then
                 { l with isActive := false, deletedAt := some now, deletedBy := some userId }
               else l) })

/-! ## BalanceController -/

/-- Relation filter `account: { organizationId, deletedAt: null }` on a
balance foreign key. -/
def accountRefInOrg (db : DB) (orgId : String) (aid : Option String) : Bool :=
  match aid with
  | some i => db.accounts.any (fun a => a.id == i && a.organizationId == orgId && a.deletedAt == none)
  | none => false

/-- Relation filter `liability: { organizationId, deletedAt: null }`. -/
def liabilityRefInOrg (db : DB) (orgId : String) (lid : Option String) : Bool :=
  match lid with
  | some i => db.liabilities.any (fun l => l.id == i && l.organizationId == orgId && l.deletedAt == none)
  | none => false

/-- The OR of the two relation filters, as in the balance list / delete
queries. -/
def balanceInstrumentInOrg (db : DB) (orgId : String) (b : Balance) : Bool :=
  accountRefInOrg db orgId b.accountId || liabilityRefInOrg db orgId b.liabilityId

/-- Payload of GET /api/balances: either the balances of one date or the
distinct dates. -/
inductive BalanceListData where
  | forDate (accountBalances liabilityBalances : List Balance) (date : Nat)
  | dates (ds : List Nat)
deriving Repr, DecidableEq

/-- GET /api/balances. -/
def BalanceController.list (db : DB) (userId : String) (dateParam : Option Nat) :
    Res BalanceListData :=
  match getOrganizationMembership db userId with
  | none => .noOrganization
  | some m =>
    match dateParam with
    | some date =>
      .ok (.forDate
        (db.balances.filter (fun b =>
          accountRefInOrg db m.organizationId b.accountId && b.date == date))
        (db.balances.filter (fun b =>
          liabilityRefInOrg db m.organizationId b.liabilityId && b.date == date))
        date)
    | none =>
      .ok (.dates
        (((db.balances.filter (balanceInstrumentInOrg db m.organizationId)).map
            Balance.date).dedup))

/-- Body of POST /api/balances (`createBalanceSchema`). -/
structure BalanceBody where
  accountId : Option String
  liabilityId : Option String
  amount : Int
  date : Nat
  note : Option String
deriving Repr, DecidableEq

/-- The zod refine of `createBalanceSchema`: exactly one of accountId /
liabilityId is present. -/
def balanceXorOk (accountId liabilityId : Option String) : Bool :=
  (accountId.isSome || liabilityId.isSome) && !(accountId.isSome && liabilityId.isSome)

/-- Key clash against the unique indexes `Balance_accountId_date_key` and
`Balance_liabilityId_date_key` (null foreign keys never clash, as in
Postgres). -/
def balanceKeyClash (accountId liabilityId : Option String) (date : Nat) (b : Balance) : Bool :=
  (accountId.isSome && b.accountId == accountId && b.date == date)
    || (liabilityId.isSome && b.liabilityId == liabilityId && b.date == date)

/-- POST /api/balances. The source calls plain `prisma.balance.create`; the
unique indexes of the migration make that insert throw when a row with the
same (accountId, date) or (liabilityId, date) already exists, which the
handler does not catch — it surfaces through `next(error)` as a server
error with no state change. -/
def BalanceController.create (db : DB) (userId : String) (body : BalanceBody)
    (newId : String) : Res Balance × DB :=
  match getOrganizationMembership db userId with
  | none => (.noOrganization, db)
  | some m =>
    if balanceCreateDenied m.role then (.forbidden "Viewers cannot create balances", db)
    else if !balanceXorOk body.accountId body.liabilityId then (.validationFailed, db)
    else if body.accountId.isSome && !accountRefInOrg db m.organizationId body.accountId then
      (.notFound "Account not found", db)
    else if body.liabilityId.isSome && !liabilityRefInOrg db m.organizationId body.liabilityId then
      (.notFound "Liability not found", db)
    else if db.balances.any (balanceKeyClash body.accountId body.liabilityId body.date) then
      (.serverError, db)
    else
      let nb : Balance :=
        { id := newId, accountId := body.accountId, liabilityId := body.liabilityId,
          amount := body.amount, date := body.date, note := body.note }
      (.ok nb, { db with balances := db.balances ++ [nb] })

/-- One entry of the bulk body. -/
structure BulkBalanceItem where
  accountId : Option String
  liabilityId : Option String
  amount : Int
deriving Repr, DecidableEq

/-- Body of POST /api/balances/bulk (`bulkUpdateBalancesSchema`). -/
structure BulkUpdateBody where
  date : Nat
  balances : List BulkBalanceItem
  note : Option String
deriving Repr, DecidableEq

/-- One `prisma.balance.upsert` keyed on accountId_date or liabilityId_date:
update amount / note in place when the keyed row exists, create otherwise. -/
def upsertBalance (balances : List Balance) (item : BulkBalanceItem) (date : Nat)
    (note : Option String) (newId : String) : List Balance :=
  if balances.any (balanceKeyClash item.accountId item.liabilityId date) then
    balances.map (fun b =>
      if balanceKeyClash item.accountId item.liabilityId date b then
        { b with amount := item.amount, note := note }
      else b)
  else
    balances ++ [{ id := newId, accountId := item.accountId, liabilityId := item.liabilityId,
                   amount := item.amount, date := date, note := note }]

/-- POST /api/balances/bulk. `freshId` stands for the ids Prisma would
generate for created rows, indexed by batch position. The response echo of
the upserted rows is not carried. -/
def BalanceController.bulkUpdate (db : DB) (userId : String) (body : BulkUpdateBody)
    (freshId : Nat → String) : Res Unit × DB :=
  match getOrganizationMembership db userId with
  | none => (.noOrganization, db)
  | some m =>
    if balanceBulkUpdateDenied m.role then (.forbidden "Viewers cannot update balances", db)
    else if !(body.balances.all (fun i => balanceXorOk i.accountId i.liabilityId)) then
      (.validationFailed, db)
    else
      let accountIds := body.balances.filterMap (fun i => i.accountId)
      let liabilityIds := body.balances.filterMap (fun i => i.liabilityId)
      let matchedAccounts := db.accounts.filter (fun a =>
        accountIds.contains a.id && a.organizationId == m.organizationId && a.deletedAt == none)
      let matchedLiabilities := db.liabilities.filter (fun l =>
        liabilityIds.contains l.id && l.organizationId == m.organizationId && l.deletedAt == none)
      if matchedAccounts.length == accountIds.length
          && matchedLiabilities.length == liabilityIds.length then
        (.noContent,
         { db with balances :=
             (body.balances.enum.foldl (fun acc p =>
               upsertBalance acc p.2 body.date body.note (freshId p.1)) db.balances) })
      else (.notFound "One or more accounts/liabilities not found", db)

/-- DELETE /api/balances/:id. -/
def BalanceController.delete (db : DB) (userId id : String) : Res Unit × DB :=
  match getOrganizationMembership db userId with
  | none => (.noOrganization, db)
  | some m =>
    if balanceDeleteDenied m.role then (.forbidden "Viewers cannot delete balances", db)
    else
      match db.balances.find? (fun b =>
          b.id == id && balanceInstrumentInOrg db m.organizationId b) with
      | none => (.notFound "Balance not found", db)
      | some _ =>
        (.noContent, { db with balances := db.balances.filter (fun b => !(b.id == id)) })

/-! ## InvitationController -/

/-- 7 days in milliseconds: the expiry horizon `setDate(getDate() + 7)`
stamped on every sent invitation. -/
def sevenDayMs : Nat := 7 * 24 * 60 * 60 * 1000

/-- Public fields of an invitation returned by send (never the token hash). -/
structure InvitationPublic where
  id : String
  email : String
  role : Role
  expiresAt : Nat
  sentAt : Nat
deriving Repr, DecidableEq

/-- Body of POST /api/invitations (`sendInvitationSchema`; role defaults to
MEMBER). -/
structure SendBody where
  email : String
  role : Option Role
deriving Repr, DecidableEq

/-- The send guard "user is trying to invite themselves": the invitee user
looked up by email is the caller. -/
def inviteeIsSelf (db : DB) (userId email : String) : Bool :=
  match db.users.find? (fun u => u.email == email) with
  | some u => u.id == userId
  | none => false

/-- The send guard "user is already a member": the invitee user looked up by
email already holds a membership row in the organization. -/
def inviteeAlreadyMember (db : DB) (orgId email : String) : Bool :=
  match db.users.find? (fun u => u.email == email) with
  | some u => db.members.any (fun mm => mm.organizationId == orgId && mm.userId == u.id)
  | none => false

/-- POST /api/invitations. `emailFormatOk` stands for the zod email-format
check, `newHashedToken` for the SHA-256 hash of the freshly generated
random token, `newId` for the id Prisma would generate on the create arm
of the upsert. The invitation email dispatch is best-effort in the source
(failure logged, never rolled back) and has no effect on the store, so it
is not modelled. -/
def InvitationController.send (db : DB) (emailFormatOk : String → Bool) (userId : String)
    (body : SendBody) (newHashedToken newId : String) (now : Nat) :
    Res InvitationPublic × DB :=
  match getOrganizationMembership db userId with
  | none => (.noOrganization, db)
  | some m =>
    if inviteDenied m.role then (.forbidden "Only admins and owners can send invitations", db)
    else if !emailFormatOk body.email then (.validationFailed, db)
    else
      let email := body.email
      let role := body.role.getD .MEMBER
      if inviteeIsSelf db userId email then
        (.badRequest "Cannot invite yourself", db)
      else if inviteeAlreadyMember db m.organizationId email then
        (.badRequest "User is already a member of this organization", db)
      else
        match db.invitations.find? (fun i =>
            i.organizationId == m.organizationId && i.email == email) with
        | some ex =>
          if ex.acceptedAt == none && ex.revokedAt == none && decide (now < ex.expiresAt) then
            (.badRequest "An active invitation already exists for this email", db)
          else
            let updated : Invitation :=
              { ex with role := role, token := newHashedToken, invitedBy := userId,
                        sentAt := now, expiresAt := now + sevenDayMs,
                        acceptedAt := none, revokedAt := none }
            (.ok ⟨updated.id, updated.email, updated.role, updated.expiresAt, updated.sentAt⟩,
             { db with invitations := db.invitations.map (fun i =>
                 if i.organizationId == m.organizationId && i.email == email then updated
                 else i) })
        | none =>
          let created : Invitation :=
            { id := newId, organizationId := m.organizationId, email := email, role := role,
              token := newHashedToken, invitedBy := userId, sentAt := now,
              expiresAt := now + sevenDayMs, acceptedAt := none, revokedAt := none }
          (.ok ⟨created.id, created.email, created.role, created.expiresAt, created.sentAt⟩,
           { db with invitations := db.invitations ++ [created] })

/-- Filter of the pending bucket in GET /api/invitations:
`!acceptedAt && !revokedAt && expiresAt > new Date()`. -/
def pendingFilter (now : Nat) (i : Invitation) : Bool :=
  i.acceptedAt == none && i.revokedAt == none && decide (now < i.expiresAt)

/-- Filter of the expired bucket: `!acceptedAt && !revokedAt &&
expiresAt <= new Date()`. -/
def expiredFilter (now : Nat) (i : Invitation) : Bool :=
  i.acceptedAt == none && i.revokedAt == none && decide (i.expiresAt ≤ now)

/-- Filter of the accepted bucket. -/
def acceptedFilter (i : Invitation) : Bool := i.acceptedAt.isSome

/-- Filter of the revoked bucket. -/
def revokedFilter (i : Invitation) : Bool := i.revokedAt.isSome

/-- The four derived buckets of GET /api/invitations. -/
structure InvitationBuckets where
  pending : List Invitation
  expired : List Invitation
  accepted : List Invitation
  revoked : List Invitation
deriving Repr, DecidableEq

/-- GET /api/invitations. -/
def InvitationController.list (db : DB) (userId : String) (now : Nat) :
    Res InvitationBuckets :=
  match getOrganizationMembership db userId with
  | none => .noOrganization
  | some m =>
    let invs := db.invitations.filter (fun i => i.organizationId == m.organizationId)
    .ok { pending := invs.filter (pendingFilter now)
          expired := invs.filter (expiredFilter now)
          accepted := invs.filter acceptedFilter
          revoked := invs.filter revokedFilter }

/-- Outcome of POST /api/invitations/accept/:token, one constructor per
return of the handler. `emailMismatch` carries the two email addresses the
403 response body discloses (`invitedEmail`, `yourEmail`). -/
inductive AcceptOutcome where
  | invalidToken
  | alreadyAccepted
  | alreadyRevoked
  | expired
  | orgDeleted
  | userNotFound
  | emailMismatch (invitedEmail yourEmail : String)
  | alreadyMember (role : Role)
  | joined (role : Role)
  | txFailed
deriving Repr, DecidableEq

/-- HTTP status the handler attaches to each accept outcome. -/
def acceptStatus : AcceptOutcome → Nat
  | .invalidToken => 404
  | .alreadyAccepted => 400
  | .alreadyRevoked => 400
  | .expired => 400
  | .orgDeleted => 400
  | .userNotFound => 404
  | .emailMismatch _ _ => 403
  | .alreadyMember _ => 200
  | .joined _ => 200
  | .txFailed => 500

/-- Stamp `acceptedAt` on the invitation with the given id
(`prisma.invitation.update`). -/
def stampAccepted (invitations : List Invitation) (invId : String) (now : Nat) :
    List Invitation :=
  invitations.map (fun i => if i.id == invId then { i with acceptedAt := some now } else i)

/-- POST /api/invitations/accept/:token. `hash` stands for SHA-256;
`txCommits` is the oracle for the `prisma.$transaction` wrapping the
membership creation and the invitation stamp: when it commits both writes
land, when it fails neither does (rollback) and the error surfaces through
`next(error)`. The organization lookup is by the required foreign key of
the invitation, so a missing row is treated like a soft-deleted one. -/
def InvitationController.accept (db : DB) (hash : String → String) (userId token : String)
    (now : Nat) (txCommits : Bool) : AcceptOutcome × DB :=
  let hashedToken := hash token
  match db.invitations.find? (fun i => i.token == hashedToken) with
  | none => (.invalidToken, db)
  | some inv =>
    if inv.acceptedAt.isSome then (.alreadyAccepted, db)
    else if inv.revokedAt.isSome then (.alreadyRevoked, db)
    else if decide (inv.expiresAt < now) then (.expired, db)
    else if !(db.organizations.any (fun o =>
        o.id == inv.organizationId && o.deletedAt == none)) then
      (.orgDeleted, db)
    else
      match db.users.find? (fun u => u.id == userId) with
      | none => (.userNotFound, db)
      | some user =>
        if user.email != inv.email then (.emailMismatch inv.email user.email, db)
        else
          match db.members.find? (fun mm =>
              mm.organizationId == inv.organizationId && mm.userId == userId) with
          | some em =>
            (.alreadyMember em.role,
             { db with invitations := stampAccepted db.invitations inv.id now })
          | none =>
            if txCommits then
              (.joined inv.role,
               { db with
                 members := db.members ++
                   [{ organizationId := inv.organizationId, userId := userId,
                      role := inv.role, invitedBy := some inv.invitedBy,
                      invitedAt := some inv.sentAt, acceptedAt := some now }],
                 invitations := stampAccepted db.invitations inv.id now })
            else (.txFailed, db)

/-- DELETE /api/invitations/:id. -/
def InvitationController.revoke (db : DB) (userId invitationId : String) (now : Nat) :
    Res Unit × DB :=
  match getOrganizationMembership db userId with
  | none => (.noOrganization, db)
  | some m =>
    if revokeInviteDenied m.role then
      (.forbidden "Only admins and owners can revoke invitations", db)
    else
      match db.invitations.find? (fun i => i.id == invitationId) with
      | none => (.notFound "Invitation not found", db)
      | some inv =>
        if inv.organizationId != m.organizationId then
          (.forbidden "Invitation belongs to different organization", db)
        else if inv.acceptedAt.isSome then
          (.badRequest "Cannot revoke an accepted invitation", db)
        else if inv.revokedAt.isSome then
          (.badRequest "Invitation is already revoked", db)
        else
          (.ok (), { db with invitations := db.invitations.map (fun i =>
              if i.id == invitationId then { i with revokedAt := some now } else i) })

/-- The accept outcomes that reject the request before (or instead of) the
membership-creation transaction. -/
def acceptIsRejection : AcceptOutcome → Bool
  | .invalidToken => true
  | .alreadyAccepted => true
  | .alreadyRevoked => true
  | .expired => true
  | .orgDeleted => true
  | .userNotFound => true
  | .emailMismatch _ _ => true
  | .txFailed => true
  | .alreadyMember _ => false
  | .joined _ => false

/-! ## Concrete fixture store

A two-organization store in the style of the tenant-isolation test suite:
organization A owns an account, a liability and a balance, and so does
organization B; A has an OWNER, a MEMBER and a VIEWER; three invitations are
outstanding (a pending one in A, one in B, and one in A expiring exactly at
time 500). Used by the concrete witnesses and counterexamples below. -/

/-- Account fixture of organization A. -/
def accA : Account :=
  { id := "accA", organizationId := "orgA", createdBy := "ua", name := "Checking",
    type := .CHECKING, currency := "USD", institution := none, accountNumber := none,
    isActive := true, deletedAt := none, deletedBy := none }

/-- Account fixture of organization B. -/
def accB : Account :=
  { id := "accB", organizationId := "orgB", createdBy := "ub", name := "Checking",
    type := .CHECKING, currency := "USD", institution := none, accountNumber := none,
    isActive := true, deletedAt := none, deletedBy := none }

/-- Liability fixture of organization A. -/
def liaA : Liability :=
  { id := "liaA", organizationId := "orgA", createdBy := "ua", name := "Card",
    type := .CREDIT_CARD, currency := "USD", interestRate := some 20,
    minimumPayment := some 25, dueDate := some 1, institution := none,
    accountNumber := none, isActive := true, deletedAt := none, deletedBy := none }

/-- Liability fixture of organization B. -/
def liaB : Liability :=
  { id := "liaB", organizationId := "orgB", createdBy := "ub", name := "Card",
    type := .CREDIT_CARD, currency := "USD", interestRate := some 20,
    minimumPayment := some 25, dueDate := some 1, institution := none,
    accountNumber := none, isActive := true, deletedAt := none, deletedBy := none }

/-- Balance fixture on accA. -/
def balA : Balance :=
  { id := "balA", accountId := some "accA", liabilityId := none, amount := 100,
    date := 10, note := none }

/-- Balance fixture on accB. -/
def balB : Balance :=
  { id := "balB", accountId := some "accB", liabilityId := none, amount := 75000,
    date := 10, note := none }

/-- Pending invitation of organization A for carol (expires at 1000). -/
def invA : Invitation :=
  { id := "invA", organizationId := "orgA", email := "carol@x.com", role := .MEMBER,
    token := "tokA", invitedBy := "ua", sentAt := 0, expiresAt := 1000,
    acceptedAt := none, revokedAt := none }

/-- Invitation of organization B for dave. -/
def invB : Invitation :=
  { id := "invB", organizationId := "orgB", email := "dave@x.com", role := .MEMBER,
    token := "tokB", invitedBy := "ub", sentAt := 0, expiresAt := 1000,
    acceptedAt := none, revokedAt := none }

/-- Invitation of organization A for erin expiring exactly at time 500. -/
def invE : Invitation :=
  { id := "invE", organizationId := "orgA", email := "erin@x.com", role := .MEMBER,
    token := "tokE", invitedBy := "ua", sentAt := 0, expiresAt := 500,
    acceptedAt := none, revokedAt := none }

/-- Membership of the OWNER of organization A. -/
def memA : OrganizationMember :=
  { organizationId := "orgA", userId := "ua", role := .OWNER,
    invitedBy := none, invitedAt := none, acceptedAt := none }

/-- Membership of the OWNER of organization B. -/
def memB : OrganizationMember :=
  { organizationId := "orgB", userId := "ub", role := .OWNER,
    invitedBy := none, invitedAt := none, acceptedAt := none }

/-- MEMBER-role membership in organization A. -/
def memM : OrganizationMember :=
  { organizationId := "orgA", userId := "um", role := .MEMBER,
    invitedBy := none, invitedAt := none, acceptedAt := none }

/-- VIEWER-role membership in organization A. -/
def memV : OrganizationMember :=
  { organizationId := "orgA", userId := "uv", role := .VIEWER,
    invitedBy := none, invitedAt := none, acceptedAt := none }

/-- The two-organization fixture store. -/
def dbMain : DB :=
  { users := [⟨"ua", "a@x.com"⟩, ⟨"ub", "b@x.com"⟩, ⟨"um", "m@x.com"⟩,
              ⟨"uv", "v@x.com"⟩, ⟨"uc", "carol@x.com"⟩, ⟨"ue", "erin@x.com"⟩],
    organizations := [⟨"orgA", "Organization A", none⟩, ⟨"orgB", "Organization B", none⟩],
    members := [memA, memB, memM, memV],
    invitations := [invA, invB, invE],
    accounts := [accA, accB],
    liabilities := [liaA, liaB],
    balances := [balA, balB] }

/-! ## Theorems -/

/-- C4: the stored row of an Account or Liability create depends only on the
schema-validated payload fields; two bodies of the same caller that differ
only in client-supplied `organizationId` / `createdBy` fields produce
identical results, and any row that is stored carries the resolved
membership organization and the authenticated caller identity. -/
theorem create_stamps_identity (db : DB) (userId newIdA newIdL : String)
    (b1 b2 : AccountBody) (l1 l2 : LiabilityBody)
    (hb : b1.name = b2.name ∧ b1.type = b2.type ∧ b1.currency = b2.currency
        ∧ b1.institution = b2.institution ∧ b1.accountNumber = b2.accountNumber)
    (hl : l1.name = l2.name ∧ l1.type = l2.type ∧ l1.currency = l2.currency
        ∧ l1.interestRate = l2.interestRate ∧ l1.minimumPayment = l2.minimumPayment
        ∧ l1.dueDate = l2.dueDate ∧ l1.institution = l2.institution
        ∧ l1.accountNumber = l2.accountNumber) :
    AccountController.create db userId b1 newIdA = AccountController.create db userId b2 newIdA
    ∧ LiabilityController.create db userId l1 newIdL
        = LiabilityController.create db userId l2 newIdL
    ∧ (∀ m a db2, getOrganizationMembership db userId = some m →
        AccountController.create db userId b1 newIdA = (.ok a, db2) →
        a.organizationId = m.organizationId ∧ a.createdBy = userId)
    ∧ (∀ m l db2, getOrganizationMembership db userId = some m →
        LiabilityController.create db userId l1 newIdL = (.ok l, db2) →
        l.organizationId = m.organizationId ∧ l.createdBy = userId) := by
  obtain ⟨hb1, hb2, hb3, hb4, hb5⟩ := hb
  obtain ⟨hl1, hl2, hl3, hl4, hl5, hl6, hl7, hl8⟩ := hl
  have hsa : createAccountSchema b1 = createAccountSchema b2 := by
    unfold createAccountSchema
    rw [hb1, hb2, hb3, hb4, hb5]
  have hsl : createLiabilitySchema l1 = createLiabilitySchema l2 := by
    unfold createLiabilitySchema
    rw [hl1, hl2, hl3, hl4, hl5, hl6, hl7, hl8]
  refine ⟨?_, ?_, ?_, ?_⟩
  · unfold AccountController.create
    rw [hsa]
  · unfold LiabilityController.create
    rw [hsl]
  · intro m a db2 hm h
    unfold AccountController.create at h
    rw [hm] at h
    by_cases hg : accountCreateDenied m.role = true
    · simp [hg] at h
    · simp [hg] at h
      cases hv : createAccountSchema b1 with
      | none => rw [hv] at h; simp at h
      | some v =>
        rw [hv] at h
        simp at h
        obtain ⟨h1, -⟩ := h
        subst h1
        exact ⟨rfl, rfl⟩
  · intro m l db2 hm h
    unfold LiabilityController.create at h
    rw [hm] at h
    by_cases hg : liabilityCreateDenied m.role = true
    · simp [hg] at h
    · simp [hg] at h
      cases hv : createLiabilitySchema l1 with
      | none => rw [hv] at h; simp at h
      | some v =>
        rw [hv] at h
        simp at h
        obtain ⟨h1, -⟩ := h
        subst h1
        exact ⟨rfl, rfl⟩

/-- Witness for create_stamps_identity: two concrete create calls by the
OWNER of organization A whose bodies differ only in smuggled
organizationId / createdBy payload fields give identical results. -/
theorem create_stamps_identity_witness :
    AccountController.create dbMain "ua"
        { name := "New", type := .SAVINGS, currency := none, institution := none,
          accountNumber := none, organizationId := some "orgB", createdBy := some "ub" }
        "accNew"
      = AccountController.create dbMain "ua"
        { name := "New", type := .SAVINGS, currency := none, institution := none,
          accountNumber := none, organizationId := none, createdBy := none }
        "accNew" := by
  exact (create_stamps_identity dbMain "ua" "accNew" "liaNew"
    { name := "New", type := .SAVINGS, currency := none, institution := none,
      accountNumber := none, organizationId := some "orgB", createdBy := some "ub" }
    { name := "New", type := .SAVINGS, currency := none, institution := none,
      accountNumber := none, organizationId := none, createdBy := none }
    { name := "L", type := .OTHER, currency := none, interestRate := none,
      minimumPayment := none, dueDate := none, institution := none,
      accountNumber := none, organizationId := some "orgB", createdBy := some "ub" }
    { name := "L", type := .OTHER, currency := none, interestRate := none,
      minimumPayment := none, dueDate := none, institution := none,
      accountNumber := none, organizationId := none, createdBy := none }
    (by exact ⟨rfl, rfl, rfl, rfl, rfl⟩)
    (by exact ⟨rfl, rfl, rfl, rfl, rfl, rfl, rfl, rfl⟩)).1

/-- C9: when a valid, unexpired, unrevoked invitation of an active
organization is accepted by an authenticated user whose email differs from
the invitation target, the handler rejects with HTTP 403 and the response
disloses both the invitation target email and the caller email, with no
state change. -/
theorem accept_email_mismatch_disclosure (db : DB) (hash : String → String)
    (userId token : String) (now : Nat) (txCommits : Bool)
    (inv : Invitation) (user : User)
    (hfind : db.invitations.find? (fun i => i.token == hash token) = some inv)
    (hacc : inv.acceptedAt = none) (hrev : inv.revokedAt = none)
    (hexp : ¬ inv.expiresAt < now)
    (horg : db.organizations.any (fun o =>
        o.id == inv.organizationId && o.deletedAt == none) = true)
    (huser : db.users.find? (fun u => u.id == userId) = some user)
    (hmail : user.email ≠ inv.email) :
    InvitationController.accept db hash userId token now txCommits
      = (.emailMismatch inv.email user.email, db)
    ∧ acceptStatus (.emailMismatch inv.email user.email) = 403 := by
  constructor
  · simp [InvitationController.accept, hfind, hacc, hrev, hexp, horg, huser, hmail]
  · rfl

/-- Witness for accept_email_mismatch_disclosure: the OWNER of organization A
accepts the pending invitation addressed to carol and gets back a 403 that
echoes both addresses. -/
theorem accept_email_mismatch_disclosure_witness :
    InvitationController.accept dbMain (fun s => s) "ua" "tokA" 500 true
      = (.emailMismatch "carol@x.com" "a@x.com", dbMain)
    ∧ acceptStatus (.emailMismatch "carol@x.com" "a@x.com") = 403 := by
  have h := accept_email_mismatch_disclosure dbMain (fun s => s) "ua" "tokA" 500 true
    invA ⟨"ua", "a@x.com"⟩ (by decide) (by decide) (by decide) (by decide)
    (by decide) (by decide) (by decide)
  exact h

/-- C10: the list and accept handlers disagree at the expiry boundary — an
invitation with both terminal timestamps unset whose `expiresAt` equals the
current time lands in the expired bucket of list (`expiresAt <= now`), is
not pending, yet accept (strict `expiresAt < now`) does not reject it as
expired and proceeds. -/
theorem expiry_boundary_disagreement (now : Nat) (inv : Invitation)
    (hacc : inv.acceptedAt = none) (hrev : inv.revokedAt = none)
    (hexp : inv.expiresAt = now) :
    expiredFilter now inv = true ∧ pendingFilter now inv = false
    ∧ ∀ (db : DB) (hash : String → String) (userId token : String) (txCommits : Bool),
        db.invitations.find? (fun i => i.token == hash token) = some inv →
        (InvitationController.accept db hash userId token now txCommits).fst
          ≠ .expired := by
  refine ⟨?_, ?_, ?_⟩
  · simp [expiredFilter, hacc, hrev, hexp]
  · simp [pendingFilter, hacc, hrev, hexp]
  · intro db hash userId token txCommits hfind
    have hlt : ¬ inv.expiresAt < now := by omega
    simp only [InvitationController.accept, hfind, hacc, hrev]
    simp only [Option.isSome_none, Bool.false_eq_true, if_false, hlt, decide_eq_true_eq,
      if_neg hlt]
    split
    · simp
    · split
      · simp
      · split
        · simp
        · split
          · simp
          · split <;> simp

/-- Witness for expiry_boundary_disagreement: at time 500 the invitation for
erin (expiresAt = 500) is classified expired by list but accept with its
token does not reject it as expired (it in fact joins erin to the
organization). -/
theorem expiry_boundary_disagreement_witness :
    expiredFilter 500 invE = true ∧ pendingFilter 500 invE = false
    ∧ (InvitationController.accept dbMain (fun s => s) "ue" "tokE" 500 true).fst
        ≠ .expired := by
  have h := expiry_boundary_disagreement 500 invE (by decide) (by decide) (by decide)
  exact ⟨h.1, h.2.1, h.2.2 dbMain (fun s => s) "ue" "tokE" true (by decide)⟩

/-- C6 counterexample: the OWNER of organization A revokes the invitation
`invB` that belongs to organization B. The handler answers with a
Forbidden outcome whose message names the other organization — not with
the NotFound outcome it gives for a nonexistent invitation id — so the
response confirms that the invitation exists in another organization. -/
theorem revoke_cross_org_forbidden_cex :
    InvitationController.revoke dbMain "ua" "invB" 500
      = (.forbidden "Invitation belongs to different organization", dbMain)
    ∧ (InvitationController.revoke dbMain "ua" "invB" 500).fst
        ≠ .notFound "Invitation not found"
    ∧ InvitationController.revoke dbMain "ua" "nope" 500
        = (.notFound "Invitation not found", dbMain) := by
  refine ⟨by decide, by decide, by decide⟩

/-- C6 amended: revoking an invitation of a different organization is
rejected with a Forbidden outcome carrying the message "Invitation belongs
to different organization" — an outcome distinct from the NotFound of a
nonexistent id, hence existence-confirming — and leaves the store
unchanged. -/
theorem revoke_cross_org_forbidden (db : DB) (userId invitationId : String) (now : Nat)
    (m : OrganizationMember) (inv : Invitation)
    (hm : getOrganizationMembership db userId = some m)
    (hrole : revokeInviteDenied m.role = false)
    (hfind : db.invitations.find? (fun i => i.id == invitationId) = some inv)
    (hcross : inv.organizationId ≠ m.organizationId) :
    InvitationController.revoke db userId invitationId now
      = (.forbidden "Invitation belongs to different organization", db)
    ∧ (Res.forbidden "Invitation belongs to different organization" : Res Unit)
        ≠ .notFound "Invitation not found" := by
  constructor
  · simp [InvitationController.revoke, hm, hrole, hfind, hcross]
  · decide

/-- Witness for revoke_cross_org_forbidden at the fixture store. -/
theorem revoke_cross_org_forbidden_witness :
    InvitationController.revoke dbMain "ua" "invB" 600
      = (.forbidden "Invitation belongs to different organization", dbMain) := by
  exact (revoke_cross_org_forbidden dbMain "ua" "invB" 600 memA invB
    (by decide) (by decide) (by decide) (by decide)).1

/-- C2 counterexample: the MEMBER `um` of organization A deletes the balance
`balA`. The delete succeeds (204, row removed) instead of being denied
with a Forbidden outcome, so the §4.2 table row "delete
(account/liability/balance): MEMBER no" does not hold for balances. -/
theorem member_can_delete_balance_cex :
    BalanceController.delete dbMain "um" "balA"
      = (.noContent, { dbMain with balances := [balB] })
    ∧ (BalanceController.delete dbMain "um" "balA").fst
        ≠ .forbidden "Viewers cannot delete balances" := by
  exact ⟨by decide, by decide⟩

/-- C2 amended: the role gates match the §4.2 table for every operation
except balance delete, where the source demands only MEMBER or higher
(VIEWER alone is denied); VIEWER is denied create/edit/delete/invite/
revokeInvite everywhere, MEMBER is denied account and liability delete and
invite/revokeInvite, ADMIN and OWNER are denied nothing; every denial is
reported as a Forbidden outcome with the store unchanged (before any
mutation). -/
theorem role_gating_table_amended :
    (∀ r : Role,
      (accountCreateDenied r = true ↔ r = .VIEWER)
      ∧ (accountEditDenied r = true ↔ r = .VIEWER)
      ∧ (accountDeleteDenied r = true ↔ (r = .VIEWER ∨ r = .MEMBER))
      ∧ (liabilityCreateDenied r = true ↔ r = .VIEWER)
      ∧ (liabilityEditDenied r = true ↔ r = .VIEWER)
      ∧ (liabilityDeleteDenied r = true ↔ (r = .VIEWER ∨ r = .MEMBER))
      ∧ (balanceCreateDenied r = true ↔ r = .VIEWER)
      ∧ (balanceBulkUpdateDenied r = true ↔ r = .VIEWER)
      ∧ (balanceDeleteDenied r = true ↔ r = .VIEWER)
      ∧ (inviteDenied r = true ↔ (r = .VIEWER ∨ r = .MEMBER))
      ∧ (revokeInviteDenied r = true ↔ (r = .VIEWER ∨ r = .MEMBER)))
    ∧ (∀ (db : DB) (userId : String) (m : OrganizationMember),
        getOrganizationMembership db userId = some m →
        (accountCreateDenied m.role = true → ∀ body newId,
          AccountController.create db userId body newId
            = (.forbidden "Viewers cannot create accounts", db))
        ∧ (accountEditDenied m.role = true → ∀ id u,
          AccountController.update db userId id u
            = (.forbidden "Viewers cannot edit accounts", db))
        ∧ (accountDeleteDenied m.role = true → ∀ id hard now,
          AccountController.delete db userId id hard now
            = (.forbidden "Only admins can delete accounts", db))
        ∧ (liabilityCreateDenied m.role = true → ∀ body newId,
          LiabilityController.create db userId body newId
            = (.forbidden "Viewers cannot create liabilities", db))
        ∧ (liabilityEditDenied m.role = true → ∀ id u,
          LiabilityController.update db userId id u
            = (.forbidden "Viewers cannot edit liabilities", db))
        ∧ (liabilityDeleteDenied m.role = true → ∀ id hard now,
          LiabilityController.delete db userId id hard now
            = (.forbidden "Only admins can delete liabilities", db))
        ∧ (balanceCreateDenied m.role = true → ∀ body newId,
          BalanceController.create db userId body newId
            = (.forbidden "Viewers cannot create balances", db))
        ∧ (balanceBulkUpdateDenied m.role = true → ∀ body freshId,
          BalanceController.bulkUpdate db userId body freshId
            = (.forbidden "Viewers cannot update balances", db))
        ∧ (balanceDeleteDenied m.role = true → ∀ id,
          BalanceController.delete db userId id
            = (.forbidden "Viewers cannot delete balances", db))
        ∧ (inviteDenied m.role = true → ∀ emailFormatOk body tk nid now,
          InvitationController.send db emailFormatOk userId body tk nid now
            = (.forbidden "Only admins and owners can send invitations", db))
        ∧ (revokeInviteDenied m.role = true → ∀ id now,
          InvitationController.revoke db userId id now
            = (.forbidden "Only admins and owners can revoke invitations", db))) := by
  constructor
  · intro r
    cases r <;> decide
  · intro db userId m hm
    refine ⟨?_, ?_, ?_, ?_, ?_, ?_, ?_, ?_, ?_, ?_, ?_⟩
    · intro h body newId
      simp [AccountController.create, hm, h]
    · intro h id u
      simp [AccountController.update, hm, h]
    · intro h id hard now
      simp [AccountController.delete, hm, h]
    · intro h body newId
      simp [LiabilityController.create, hm, h]
    · intro h id u
      simp [LiabilityController.update, hm, h]
    · intro h id hard now
      simp [LiabilityController.delete, hm, h]
    · intro h body newId
      simp [BalanceController.create, hm, h]
    · intro h body freshId
      simp [BalanceController.bulkUpdate, hm, h]
    · intro h id
      simp [BalanceController.delete, hm, h]
    · intro h emailFormatOk body tk nid now
      simp [InvitationController.send, hm, h]
    · intro h id now
      simp [InvitationController.revoke, hm, h]

/-- Witness for role_gating_table_amended: at the fixture store the VIEWER
`uv` is denied account creation with a Forbidden outcome and no state
change, and balance delete denies exactly VIEWER. -/
theorem role_gating_table_amended_witness :
    (balanceDeleteDenied .MEMBER = true ↔ Role.MEMBER = .VIEWER)
    ∧ AccountController.create dbMain "uv"
        { name := "X", type := .CHECKING, currency := none, institution := none,
          accountNumber := none, organizationId := none, createdBy := none } "accX"
        = (.forbidden "Viewers cannot create accounts", dbMain) := by
  constructor
  · exact (role_gating_table_amended.1 .MEMBER).2.2.2.2.2.2.2.2.1
  · exact (role_gating_table_amended.2 dbMain "uv" memV (by decide)).1 (by decide)
      { name := "X", type := .CHECKING, currency := none, institution := none,
        accountNumber := none, organizationId := none, createdBy := none } "accX"

/-- C5 counterexample: after the OWNER of organization A soft-deletes
`accA`, the account is gone from list EVEN WITH the includeInactive flag
and from get — the flag relaxes only the isActive predicate while the
`deletedAt: null` filter is unconditional — although its balances are
untouched. -/
theorem soft_deleted_account_not_fetchable_cex :
    (AccountController.delete dbMain "ua" "accA" false 50).fst = .noContent
    ∧ AccountController.list (AccountController.delete dbMain "ua" "accA" false 50).snd
        "ua" true = .ok []
    ∧ AccountController.get (AccountController.delete dbMain "ua" "accA" false 50).snd
        "ua" "accA" = .notFound "Account not found"
    ∧ (AccountController.delete dbMain "ua" "accA" false 50).snd.balances
        = dbMain.balances := by
  refine ⟨by decide, by decide, by decide, by decide⟩

/-- After the soft-delete map, no account passes the id-scoped active
filter for the deleted id. -/
theorem softdelete_find_none (accounts : List Account) (orgId id : String)
    (now : Nat) (userId : String) :
    (accounts.map (fun a => if a.id == id then
        { a with isActive := false, deletedAt := some now, deletedBy := some userId }
      else a)).find? (accountInOrgActive orgId id) = none := by
  rw [List.find?_eq_none]
  intro x hx
  rcases List.mem_map.1 hx with ⟨y, hy, rfl⟩
  by_cases h : y.id == id
  · simp [accountInOrgActive, h]
  · simp [accountInOrgActive, h]

/-- C5 amended: a default (non-hard) delete of an Account removes it from
the default list and from getById, and — contrary to the original claim —
also from the list produced with the explicit includeInactive flag,
because that flag only relaxes the `isActive` predicate while the
`deletedAt IS NULL` filter is unconditional (an account merely deactivated
via update, isActive = false with deletedAt unset, is what the flag
reveals); the historical balances are untouched by the soft delete. -/
theorem soft_delete_exclusion_amended (db : DB) (userId id : String) (now : Nat)
    (m : OrganizationMember) (acc : Account)
    (hm : getOrganizationMembership db userId = some m)
    (hrole : accountDeleteDenied m.role = false)
    (hfound : db.accounts.find? (accountInOrgActive m.organizationId id) = some acc) :
    ∃ db1, AccountController.delete db userId id false now = (.noContent, db1)
    ∧ AccountController.get db1 userId id = .notFound "Account not found"
    ∧ (∀ includeInactive l, AccountController.list db1 userId includeInactive = .ok l →
        ∀ a ∈ l, a.id ≠ id)
    ∧ db1.balances = db.balances
    ∧ (∀ a : Account, a.organizationId = m.organizationId → a.deletedAt = none →
        a.isActive = false →
        accountListed m.organizationId true a = true
        ∧ accountListed m.organizationId false a = false) := by
  have hdel : AccountController.delete db userId id false now
      = (.noContent,
         { db with accounts := db.accounts.map (fun a => if a.id == id then
             { a with isActive := false, deletedAt := some now, deletedBy := some userId }
           else a) }) := by
    simp [AccountController.delete, hm, hrole, hfound]
  refine ⟨_, hdel, ?_, ?_, rfl, ?_⟩
  · have hm1 : getOrganizationMembership
        { db with accounts := db.accounts.map (fun a => if a.id == id then
            { a with isActive := false, deletedAt := some now, deletedBy := some userId }
          else a) } userId = some m := hm
    simp only [AccountController.get, hm1]
    rw [softdelete_find_none]
  · intro includeInactive l hl a ha
    have hm1 : getOrganizationMembership
        { db with accounts := db.accounts.map (fun a => if a.id == id then
            { a with isActive := false, deletedAt := some now, deletedBy := some userId }
          else a) } userId = some m := hm
    simp only [AccountController.list, hm1, Res.ok.injEq] at hl
    subst hl
    have ha' := List.mem_filter.1 ha
    rcases List.mem_map.1 ha'.1 with ⟨y, hy, heq⟩
    have hp := ha'.2
    by_cases h : y.id == id
    · rw [if_pos h] at heq
      rw [← heq] at hp
      simp [accountListed] at hp
    · rw [if_neg h] at heq
      rw [← heq]
      simpa using h
  · intro a h1 h2 h3
    constructor
    · simp [accountListed, h1, h2]
    · simp [accountListed, h1, h2, h3]

/-- Witness for soft_delete_exclusion_amended at the fixture store. -/
theorem soft_delete_exclusion_amended_witness :
    AccountController.get (AccountController.delete dbMain "ua" "accA" false 50).snd
        "ua" "accA" = .notFound "Account not found"
    ∧ (AccountController.delete dbMain "ua" "accA" false 50).snd.balances
        = dbMain.balances := by
  obtain ⟨db1, heq, hget, hlist, hbal, hflag⟩ :=
    soft_delete_exclusion_amended dbMain "ua" "accA" 50 memA accA
      (by decide) (by decide) (by decide)
  rw [heq]
  exact ⟨hget, hbal⟩

/-- C7 counterexample: a second balance create for the same (accountId,
date) pair — accA already has `balA` at date 10 — does NOT upsert: the
plain `prisma.balance.create` hits the `Balance_accountId_date_key` unique
index and the request fails with a server error, leaving the stored amount
at its old value instead of the latest one. -/
theorem balance_create_duplicate_cex :
    BalanceController.create dbMain "ua"
        { accountId := some "accA", liabilityId := none, amount := 200,
          date := 10, note := none } "balNew"
      = (.serverError, dbMain)
    ∧ ((BalanceController.create dbMain "ua"
          { accountId := some "accA", liabilityId := none, amount := 200,
            date := 10, note := none } "balNew").snd.balances.filter
        (balanceKeyClash (some "accA") none 10)).map (fun b => b.amount) = [100] := by
  refine ⟨by decide, by decide⟩

/-- Updating every key-clashing row in place rewrites exactly the clashed
rows to the new amount and leaves the key population unchanged. -/
theorem upsert_filter_map (l : List Balance) (aid lid : Option String) (date : Nat)
    (amt : Int) (note : Option String) :
    (((l.map (fun b => if balanceKeyClash aid lid date b then
          { b with amount := amt, note := note } else b)).filter
        (balanceKeyClash aid lid date)).map (fun b => b.amount))
      = (l.filter (balanceKeyClash aid lid date)).map (fun _ => amt) := by
  induction l with
  | nil => rfl
  | cons b bs ih =>
    by_cases h : balanceKeyClash aid lid date b = true
    · have h2 : balanceKeyClash aid lid date { b with amount := amt, note := note } = true := by
        simpa [balanceKeyClash] using h
      simp [h, h2, ih]
    · simp [h, ih]

/-- C7 amended: a single POST /api/balances against an existing
(accountId, date) or (liabilityId, date) pair fails with a server error
and writes nothing (no duplicate row, but also no update); upsert
semantics exist only in POST /api/balances/bulk, where a second write for
the same pair updates the row in place — afterwards the store has the same
number of rows and every row of that pair carries the latest amount. -/
theorem balance_uniqueness_amended (db : DB) (userId : String) (m : OrganizationMember)
    (hm : getOrganizationMembership db userId = some m)
    (hrole : balanceCreateDenied m.role = false)
    (hrole2 : balanceBulkUpdateDenied m.role = false) :
    (∀ body newId, balanceXorOk body.accountId body.liabilityId = true →
      (body.accountId.isSome → accountRefInOrg db m.organizationId body.accountId = true) →
      (body.liabilityId.isSome → liabilityRefInOrg db m.organizationId body.liabilityId = true) →
      db.balances.any (balanceKeyClash body.accountId body.liabilityId body.date) = true →
      BalanceController.create db userId body newId = (.serverError, db))
    ∧ (∀ aid amount date note freshId,
        (db.accounts.filter (fun a => a.id == aid && a.organizationId == m.organizationId
            && a.deletedAt == none)).length = 1 →
        db.balances.any (balanceKeyClash (some aid) none date) = true →
        ∃ db1, BalanceController.bulkUpdate db userId
            { date := date, balances := [{ accountId := some aid, liabilityId := none,
                                           amount := amount }], note := note } freshId
          = (.noContent, db1)
        ∧ db1.balances.length = db.balances.length
        ∧ (db1.balances.filter (balanceKeyClash (some aid) none date)).map (fun b => b.amount)
            = (db.balances.filter (balanceKeyClash (some aid) none date)).map
                (fun _ => amount)) := by
  constructor
  · intro body newId hxor hacc hlia hclash
    have hxa : (!balanceXorOk body.accountId body.liabilityId) = false := by
      rw [hxor]; rfl
    have ha2 : (body.accountId.isSome && !accountRefInOrg db m.organizationId body.accountId)
        = false := by
      cases hA : body.accountId with
      | none => rfl
      | some a =>
        have := hacc (by rw [hA]; rfl)
        rw [hA] at this
        simp [this]
    have hl2 : (body.liabilityId.isSome
        && !liabilityRefInOrg db m.organizationId body.liabilityId) = false := by
      cases hL : body.liabilityId with
      | none => rfl
      | some a =>
        have := hlia (by rw [hL]; rfl)
        rw [hL] at this
        simp [this]
    simp only [BalanceController.create, hm, hrole, Bool.false_eq_true, if_false,
      hxa, ha2, hl2, hclash, if_true]
  · intro aid amount date note freshId hlen hclash
    simp only [BalanceController.bulkUpdate, hm, hrole2, Bool.false_eq_true, if_false]
    have hall : List.all [(⟨some aid, none, amount⟩ : BulkBalanceItem)]
          (fun i => balanceXorOk i.accountId i.liabilityId) = true := by rfl
    have hfmA : List.filterMap (fun i => i.accountId)
        [(⟨some aid, none, amount⟩ : BulkBalanceItem)] = [aid] := by rfl
    have hfmL : List.filterMap (fun i => i.liabilityId)
        [(⟨some aid, none, amount⟩ : BulkBalanceItem)] = ([] : List String) := by rfl
    simp only [hall, hfmA, hfmL, Bool.not_true, Bool.false_eq_true, if_false, if_true]
    have hfiltA : db.accounts.filter (fun a => [aid].contains a.id
        && a.organizationId == m.organizationId && a.deletedAt == none)
        = db.accounts.filter (fun a => a.id == aid
        && a.organizationId == m.organizationId && a.deletedAt == none) := by
      apply List.filter_congr
      intro a _
      by_cases h : a.id = aid
      · simp [List.contains, h]
      · simp [List.contains, h]
    have hfiltL : db.liabilities.filter (fun l => ([] : List String).contains l.id
        && l.organizationId == m.organizationId && l.deletedAt == none) = [] := by
      apply List.filter_eq_nil_iff.2
      intro l _
      simp [List.contains]
    rw [hfiltA, hfiltL, hlen]
    simp only [List.length_nil, beq_self_eq_true, Bool.and_true, if_true]
    refine ⟨_, rfl, ?_, ?_⟩
    · have hex : ∃ x ∈ db.balances, balanceKeyClash (some aid) none date x = true :=
        List.any_eq_true.1 hclash
      simp [List.enum, upsertBalance, hex]
    · simp only [List.enum, List.enumFrom, List.foldl, upsertBalance]
      rw [hclash]
      simp only [if_true]
      exact upsert_filter_map db.balances (some aid) none date amount note

/-- Witness for balance_uniqueness_amended: a bulk upsert of amount 250 for
(accA, date 10) updates the existing row in place at the fixture store. -/
theorem balance_uniqueness_amended_witness :
    ((BalanceController.bulkUpdate dbMain "ua"
        { date := 10, balances := [{ accountId := some "accA", liabilityId := none,
                                     amount := 250 }], note := none }
        (fun _ => "fresh")).snd.balances.filter
      (balanceKeyClash (some "accA") none 10)).map (fun b => b.amount)
      = (dbMain.balances.filter (balanceKeyClash (some "accA") none 10)).map
          (fun _ => (250 : Int)) := by
  obtain ⟨db1, heq, hlen, hmap⟩ :=
    (balance_uniqueness_amended dbMain "ua" memA (by decide) (by decide) (by decide)).2
      "accA" 250 10 none (fun _ => "fresh") (by decide) (by decide)
  rw [heq]
  exact hmap

/-- C8: with a resolved OWNER/ADMIN membership, a well-formed target email
that passes the self / already-a-member guards, and an existing invitation
row for (organizationId, email), send rejects with the Conflict message
exactly when that row is still pending (both terminal timestamps unset and
expiry strictly in the future), leaving the store untouched; otherwise it
overwrites the row in place with the fresh role, token hash, sentAt and a
7-day expiry and clears both terminal timestamps. -/
theorem send_conflict_iff_pending (db : DB) (emailFormatOk : String → Bool)
    (userId : String) (body : SendBody) (tk nid : String) (now : Nat)
    (m : OrganizationMember) (ex : Invitation)
    (hm : getOrganizationMembership db userId = some m)
    (hrole : inviteDenied m.role = false)
    (hemail : emailFormatOk body.email = true)
    (hnoself : inviteeIsSelf db userId body.email = false)
    (hnomember : inviteeAlreadyMember db m.organizationId body.email = false)
    (hex : db.invitations.find? (fun i =>
        i.organizationId == m.organizationId && i.email == body.email) = some ex) :
    (InvitationController.send db emailFormatOk userId body tk nid now
        = (.badRequest "An active invitation already exists for this email", db)
      ↔ (ex.acceptedAt = none ∧ ex.revokedAt = none ∧ now < ex.expiresAt))
    ∧ (¬(ex.acceptedAt = none ∧ ex.revokedAt = none ∧ now < ex.expiresAt) →
        InvitationController.send db emailFormatOk userId body tk nid now
          = (.ok ⟨ex.id, ex.email, body.role.getD .MEMBER, now + sevenDayMs, now⟩,
             { db with invitations := db.invitations.map (fun i =>
                 if i.organizationId == m.organizationId && i.email == body.email then
                   { ex with role := body.role.getD .MEMBER, token := tk, invitedBy := userId,
                             sentAt := now, expiresAt := now + sevenDayMs,
                             acceptedAt := none, revokedAt := none }
                 else i) })) := by
  have hsend : InvitationController.send db emailFormatOk userId body tk nid now
      = (if ex.acceptedAt == none && ex.revokedAt == none && decide (now < ex.expiresAt) then
          (.badRequest "An active invitation already exists for this email", db)
        else
          (.ok ⟨ex.id, ex.email, body.role.getD .MEMBER, now + sevenDayMs, now⟩,
           { db with invitations := db.invitations.map (fun i =>
               if i.organizationId == m.organizationId && i.email == body.email then
                 { ex with role := body.role.getD .MEMBER, token := tk, invitedBy := userId,
                           sentAt := now, expiresAt := now + sevenDayMs,
                           acceptedAt := none, revokedAt := none }
               else i) })) := by
    simp only [InvitationController.send, hm, hrole, Bool.false_eq_true, if_false,
      hemail, Bool.not_true, hnoself, hnomember, hex]
  by_cases hp : ex.acceptedAt = none ∧ ex.revokedAt = none ∧ now < ex.expiresAt
  · have hcond : (ex.acceptedAt == none && ex.revokedAt == none
        && decide (now < ex.expiresAt)) = true := by
      obtain ⟨h1, h2, h3⟩ := hp
      simp [h1, h2, h3]
    rw [hsend, if_pos hcond]
    refine ⟨⟨fun _ => hp, fun _ => rfl⟩, fun hcon => absurd hp hcon⟩
  · have hcond : ¬ ((ex.acceptedAt == none && ex.revokedAt == none
        && decide (now < ex.expiresAt)) = true) := by
      intro hne
      have := by simpa using hne
      exact hp ⟨this.1.1, this.1.2, this.2⟩
    rw [hsend, if_neg hcond]
    refine ⟨⟨fun hcon => ?_, fun hcon => absurd hcon hp⟩, fun _ => rfl⟩
    exact absurd (congrArg Prod.fst hcon) (by simp)

/-- Witness for send_conflict_iff_pending: re-inviting carol while her
invitation is still pending at the fixture store is rejected with the
Conflict message and the store is unchanged. -/
theorem send_conflict_iff_pending_witness :
    InvitationController.send dbMain (fun _ => true) "ua" ⟨"carol@x.com", none⟩
        "hash2" "inv2" 500
      = (.badRequest "An active invitation already exists for this email", dbMain) := by
  exact (send_conflict_iff_pending dbMain (fun _ => true) "ua" ⟨"carol@x.com", none⟩
    "hash2" "inv2" 500 memA invA (by decide) (by decide) (by decide) (by decide)
    (by decide) (by decide)).1.mpr ⟨by decide, by decide, by decide⟩

/-- C3: accept is atomic. Every rejecting outcome — including the
rolled-back transaction — leaves the store untouched; when the outcome is
`joined`, the transaction committed and exactly the two coupled writes are
observable: the new OrganizationMember row (role from the invitation,
invitedBy / invitedAt copied from it, acceptedAt = now) and the
invitation's acceptedAt stamp; and with a failing transaction no
membership row ever appears. -/
theorem accept_atomicity (db : DB) (hash : String → String) (userId token : String)
    (now : Nat) (txCommits : Bool) :
    (acceptIsRejection (InvitationController.accept db hash userId token now txCommits).fst
        = true →
      (InvitationController.accept db hash userId token now txCommits).snd = db)
    ∧ (∀ inv, db.invitations.find? (fun i => i.token == hash token) = some inv →
        ∀ ρ, (InvitationController.accept db hash userId token now txCommits).fst
            = .joined ρ →
          txCommits = true ∧ ρ = inv.role
          ∧ (InvitationController.accept db hash userId token now txCommits).snd.members
              = db.members ++
                [{ organizationId := inv.organizationId, userId := userId, role := inv.role,
                   invitedBy := some inv.invitedBy, invitedAt := some inv.sentAt,
                   acceptedAt := some now }]
          ∧ (InvitationController.accept db hash userId token now txCommits).snd.invitations
              = stampAccepted db.invitations inv.id now)
    ∧ (txCommits = false →
        (InvitationController.accept db hash userId token now txCommits).snd.members
          = db.members) := by
  cases hfind : db.invitations.find? (fun i => i.token == hash token) with
  | none =>
    refine ⟨fun _ => ?_, fun inv h => ?_, fun _ => ?_⟩
    · simp [InvitationController.accept, hfind]
    · exact absurd h (by simp)
    · simp [InvitationController.accept, hfind]
  | some inv =>
    simp only [InvitationController.accept, hfind]
    split
    · exact ⟨fun _ => rfl, fun inv' h ρ hρ => by simp at hρ, fun _ => rfl⟩
    · split
      · exact ⟨fun _ => rfl, fun inv' h ρ hρ => by simp at hρ, fun _ => rfl⟩
      · split
        · exact ⟨fun _ => rfl, fun inv' h ρ hρ => by simp at hρ, fun _ => rfl⟩
        · split
          · exact ⟨fun _ => rfl, fun inv' h ρ hρ => by simp at hρ, fun _ => rfl⟩
          · split
            · exact ⟨fun _ => rfl, fun inv' h ρ hρ => by simp at hρ, fun _ => rfl⟩
            · split
              · exact ⟨fun _ => rfl, fun inv' h ρ hρ => by simp at hρ, fun _ => rfl⟩
              · split
                · refine ⟨fun hrej => ?_, fun inv' h ρ hρ => by simp at hρ, fun _ => rfl⟩
                  · simp [acceptIsRejection] at hrej
                · split
                  · next htx =>
                    refine ⟨fun hrej => ?_, fun inv' h ρ hρ => ?_, fun htx' => ?_⟩
                    · simp [acceptIsRejection] at hrej
                    · have hinv : inv' = inv := (Option.some.inj h).symm
                      subst hinv
                      have hρ' : ρ = inv'.role := by
                        simpa using hρ.symm
                      subst hρ'
                      exact ⟨htx, rfl, rfl, rfl⟩
                    · rw [htx'] at htx
                      cases htx
                  · exact ⟨fun _ => rfl, fun inv' h ρ hρ => by simp at hρ, fun _ => rfl⟩

/-- Witness for accept_atomicity: carol accepts her pending invitation at
the fixture store with a committing transaction; the store gains exactly
the coupled membership row and acceptedAt stamp. -/
theorem accept_atomicity_witness :
    (InvitationController.accept dbMain (fun s => s) "uc" "tokA" 500 true).snd.members
      = dbMain.members ++
        [{ organizationId := "orgA", userId := "uc", role := .MEMBER,
           invitedBy := some "ua", invitedAt := some 0, acceptedAt := some 500 }]
    ∧ (InvitationController.accept dbMain (fun s => s) "uc" "tokA" 500 true).snd.invitations
      = stampAccepted dbMain.invitations "invA" 500 := by
  have h := (accept_atomicity dbMain (fun s => s) "uc" "tokA" 500 true).2.1
    invA (by decide) .MEMBER (by decide)
  exact ⟨h.2.2.1, h.2.2.2⟩

/-- C1: tenant isolation. With a membership resolved to organization
m.organizationId, every list result is confined to that organization, and
any get / update / delete that targets an id held only by other
organizations answers exactly the NotFound outcome — never a Forbidden
one — with the store unchanged, whether or not such a resource exists
(the role-gate hypotheses of the mutation clauses are evaluated before the
lookup and do not depend on the target, so the Forbidden they produce for
under-privileged roles reveals nothing about cross-tenant existence). -/
theorem tenant_isolation_cross_org (db : DB) (userId : String) (m : OrganizationMember)
    (hm : getOrganizationMembership db userId = some m)
    (aid lid bid : String)
    (ha : ∀ a ∈ db.accounts, a.id = aid → a.organizationId ≠ m.organizationId)
    (hl : ∀ l ∈ db.liabilities, l.id = lid → l.organizationId ≠ m.organizationId)
    (hb : ∀ b ∈ db.balances, b.id = bid →
        balanceInstrumentInOrg db m.organizationId b = false) :
    (∀ inc l, AccountController.list db userId inc = .ok l →
       ∀ a ∈ l, a.organizationId = m.organizationId)
    ∧ (∀ inc l, LiabilityController.list db userId inc = .ok l →
       ∀ x ∈ l, x.organizationId = m.organizationId)
    ∧ (∀ d ab lb, BalanceController.list db userId (some d) = .ok (.forDate ab lb d) →
        (∀ b ∈ ab, accountRefInOrg db m.organizationId b.accountId = true)
        ∧ (∀ b ∈ lb, liabilityRefInOrg db m.organizationId b.liabilityId = true))
    ∧ AccountController.get db userId aid = .notFound "Account not found"
    ∧ LiabilityController.get db userId lid = .notFound "Liability not found"
    ∧ (∀ u, accountEditDenied m.role = false → updateAccountSchemaOk u = true →
        AccountController.update db userId aid u = (.notFound "Account not found", db))
    ∧ (∀ u, liabilityEditDenied m.role = false → updateLiabilitySchemaOk u = true →
        LiabilityController.update db userId lid u = (.notFound "Liability not found", db))
    ∧ (∀ hard now, accountDeleteDenied m.role = false →
        AccountController.delete db userId aid hard now = (.notFound "Account not found", db))
    ∧ (∀ hard now, liabilityDeleteDenied m.role = false →
        LiabilityController.delete db userId lid hard now
          = (.notFound "Liability not found", db))
    ∧ (balanceDeleteDenied m.role = false →
        BalanceController.delete db userId bid = (.notFound "Balance not found", db)) := by
  have hnoneA : db.accounts.find? (accountInOrgActive m.organizationId aid) = none := by
    rw [List.find?_eq_none]
    intro x hx hp
    simp only [accountInOrgActive, Bool.and_eq_true, beq_iff_eq] at hp
    exact ha x hx hp.1.1 hp.1.2
  have hnoneL : db.liabilities.find? (liabilityInOrgActive m.organizationId lid) = none := by
    rw [List.find?_eq_none]
    intro x hx hp
    simp only [liabilityInOrgActive, Bool.and_eq_true, beq_iff_eq] at hp
    exact hl x hx hp.1.1 hp.1.2
  have hnoneB : db.balances.find? (fun b =>
      b.id == bid && balanceInstrumentInOrg db m.organizationId b) = none := by
    rw [List.find?_eq_none]
    intro x hx hp
    simp only [Bool.and_eq_true, beq_iff_eq] at hp
    rw [hb x hx hp.1] at hp
    exact absurd hp.2 (by simp)
  refine ⟨?_, ?_, ?_, ?_, ?_, ?_, ?_, ?_, ?_, ?_⟩
  · intro inc l hll a hal
    simp only [AccountController.list, hm, Res.ok.injEq] at hll
    subst hll
    have := List.mem_filter.1 hal
    simp only [accountListed, Bool.and_eq_true, beq_iff_eq] at this
    exact this.2.1.1
  · intro inc l hll x hxl
    simp only [LiabilityController.list, hm, Res.ok.injEq] at hll
    subst hll
    have := List.mem_filter.1 hxl
    simp only [liabilityListed, Bool.and_eq_true, beq_iff_eq] at this
    exact this.2.1.1
  · intro d ab lb hll
    simp only [BalanceController.list, hm, Res.ok.injEq, BalanceListData.forDate.injEq] at hll
    obtain ⟨hab, hlb, -⟩ := hll
    constructor
    · intro b hbm
      rw [← hab] at hbm
      have := List.mem_filter.1 hbm
      simp only [Bool.and_eq_true] at this
      exact this.2.1
    · intro b hbm
      rw [← hlb] at hbm
      have := List.mem_filter.1 hbm
      simp only [Bool.and_eq_true] at this
      exact this.2.1
  · simp only [AccountController.get, hm, hnoneA]
  · simp only [LiabilityController.get, hm, hnoneL]
  · intro u hrole hok
    simp [AccountController.update, hm, hrole, hok, hnoneA]
  · intro u hrole hok
    simp [LiabilityController.update, hm, hrole, hok, hnoneL]
  · intro hard now hrole
    simp [AccountController.delete, hm, hrole, hnoneA]
  · intro hard now hrole
    simp [LiabilityController.delete, hm, hrole, hnoneL]
  · intro hrole
    simp [BalanceController.delete, hm, hrole, hnoneB]

/-- Witness for tenant_isolation_cross_org: the OWNER of organization A
targets the resources of organization B at the fixture store and gets
NotFound everywhere with the store unchanged. -/
theorem tenant_isolation_cross_org_witness :
    AccountController.get dbMain "ua" "accB" = .notFound "Account not found"
    ∧ LiabilityController.get dbMain "ua" "liaB" = .notFound "Liability not found"
    ∧ AccountController.delete dbMain "ua" "accB" true 50
        = (.notFound "Account not found", dbMain)
    ∧ LiabilityController.delete dbMain "ua" "liaB" false 50
        = (.notFound "Liability not found", dbMain)
    ∧ BalanceController.delete dbMain "ua" "balB" = (.notFound "Balance not found", dbMain) := by
  have h := tenant_isolation_cross_org dbMain "ua" memA (by decide) "accB" "liaB" "balB"
    (by decide) (by decide) (by decide)
  exact ⟨h.2.2.2.1, h.2.2.2.2.1,
    h.2.2.2.2.2.2.2.1 true 50 (by decide),
    h.2.2.2.2.2.2.2.2.1 false 50 (by decide),
    h.2.2.2.2.2.2.2.2.2 (by decide)⟩
